import Mathlib

/-
  Verification development for the MashAI chat server.

  Shallow embedding of server/storage.ts (MemStorage) and server/routes.ts
  (POST /api/messages, GET /api/messages, the websocket close handler and the
  AI turn generator callQwenAPI).  Machine-level details that the claims do
  not touch (uuid strings, wall-clock dates, the JSON wire format of the
  upstream provider) are modelled by a counter, a logical clock, and a list
  of already-parsed delta strings respectively.
-/

namespace Chat

/-- User record (shared/schema.ts, table chat_users). -/
structure User where
  id : String
  username : String
  displayName : String
  role : String
  avatar : Option String
  isOnline : Bool
  lastSeen : Option Nat
deriving DecidableEq

/-- Message record (shared/schema.ts, table chat_messages).  Ids are modelled
by naturals (randomUUID gives fresh ids), timestamps by a monotone logical
clock.  chatType is nullable in the schema, hence Option String. -/
structure Message where
  id : Nat
  content : String
  userId : Option String
  isAI : Bool
  timestamp : Nat
  isTyping : Bool
  chatType : Option String
  privateChatUserId : Option String
  attachments : Option (List String)
  attachmentTypes : Option (List String)
  attachmentNames : Option (List String)
deriving DecidableEq

/-- InsertMessage (zod insertMessageSchema): every column with a default is
optional in the insert shape; id and timestamp are omitted. -/
structure InsertMessage where
  content : String
  userId : Option String := none
  isAI : Option Bool := none
  isTyping : Option Bool := none
  chatType : Option String := none
  privateChatUserId : Option String := none
  attachments : Option (List String) := none
  attachmentTypes : Option (List String) := none
  attachmentNames : Option (List String) := none
deriving DecidableEq

/-- JavaScript (s or-else d) on an optional string: absent, null and the
empty string are falsy and fall back to the default. -/
def jsOrString (v : Option String) (d : String) : String :=
  match v with
  | none => d
  | some s => if s = "" then d else s

/-- JavaScript (x or-else null) / (x or-else undefined) on an optional
string: the empty string collapses to the null/undefined branch. -/
def jsTruthy (v : Option String) : Option String :=
  match v with
  | none => none
  | some s => if s = "" then none else some s

/-- JavaScript (b or-else false) on an optional boolean. -/
def jsOrBool (v : Option Bool) : Bool := v.getD false

/-- State of MemStorage (server/storage.ts): messages and users in insertion
order (Map iteration order), a counter standing for randomUUID, and a
logical clock standing for new Date(). -/
structure StorageState where
  messages : List Message
  users : List User
  nextId : Nat
  now : Nat
deriving DecidableEq

def emptyStorage : StorageState :=
  { messages := [], users := [], nextId := 0, now := 0 }

/-- MemStorage.getUser. -/
def getUser (st : StorageState) (id : String) : Option User :=
  st.users.find? (fun u => u.id = id)

/-- MemStorage.createMessage: fill the defaulted fields exactly as the source
does with falsy-or, assign a fresh id and the current time, store. -/
def createMessage (st : StorageState) (im : InsertMessage) : Message × StorageState :=
  let m : Message :=
    { id := st.nextId
      content := im.content
      userId := jsTruthy im.userId
      isAI := jsOrBool im.isAI
      timestamp := st.now
      isTyping := jsOrBool im.isTyping
      chatType := some (jsOrString im.chatType "general")
      privateChatUserId := jsTruthy im.privateChatUserId
      attachments := im.attachments
      attachmentTypes := im.attachmentTypes
      attachmentNames := im.attachmentNames }
  (m, { st with messages := st.messages ++ [m], nextId := st.nextId + 1, now := st.now + 1 })

/-- The updates argument of updateMessage, i.e. a partial InsertMessage: a
field that is some is a present key and overwrites, none is an absent key.
id and timestamp are not part of the insert shape, so they are never
updatable. -/
structure MessageUpdates where
  content : Option String := none
  userId : Option (Option String) := none
  isAI : Option Bool := none
  isTyping : Option Bool := none
  chatType : Option (Option String) := none
  privateChatUserId : Option (Option String) := none
  attachments : Option (Option (List String)) := none
  attachmentTypes : Option (Option (List String)) := none
  attachmentNames : Option (Option (List String)) := none
deriving DecidableEq

/-- JavaScript object-spread merge of a message with a partial update:
present keys overwrite, absent keys leave the stored value. -/
def applyUpdates (m : Message) (u : MessageUpdates) : Message :=
  { m with
    content := u.content.getD m.content
    userId := u.userId.getD m.userId
    isAI := u.isAI.getD m.isAI
    isTyping := u.isTyping.getD m.isTyping
    chatType := u.chatType.getD m.chatType
    privateChatUserId := u.privateChatUserId.getD m.privateChatUserId
    attachments := u.attachments.getD m.attachments
    attachmentTypes := u.attachmentTypes.getD m.attachmentTypes
    attachmentNames := u.attachmentNames.getD m.attachmentNames }

/-- MemStorage.updateMessage: look the id up; when present, merge the updates
into the stored record in place; when absent, do nothing. -/
def updateMessage (st : StorageState) (id : Nat) (u : MessageUpdates) : StorageState :=
  match st.messages.find? (fun m => m.id = id) with
  | none => st
  | some _ =>
    { st with messages := st.messages.map (fun m => if m.id = id then applyUpdates m u else m) }

/-- The fresh typing placeholder record MemStorage.updateMessageTyping
inserts: empty content, isTyping true, general scope. -/
def typingRecord (userId : String) (id : Nat) (now : Nat) : Message :=
  { id := id
    content := ""
    userId := some userId
    isAI := false
    timestamp := now
    isTyping := true
    chatType := some "general"
    privateChatUserId := none
    attachments := none
    attachmentTypes := none
    attachmentNames := none }

/-- MemStorage.updateMessageTyping: delete every typing record of the user,
then insert one fresh empty typing record when isTyping is true. -/
def updateMessageTyping (st : StorageState) (userId : String) (isTyping : Bool) : StorageState :=
  let kept := st.messages.filter (fun m => !(decide (m.userId = some userId) && m.isTyping))
  if isTyping then
    { st with
      messages := kept ++ [typingRecord userId st.nextId st.now]
      nextId := st.nextId + 1
      now := st.now + 1 }
  else
    { st with messages := kept }

/-- MemStorage.updateUserOnlineStatus: when the user exists, set isOnline and
refresh lastSeen; otherwise do nothing. -/
def updateUserOnlineStatus (st : StorageState) (id : String) (isOnline : Bool) : StorageState :=
  { st with users := st.users.map (fun u =>
      if u.id = id then { u with isOnline := isOnline, lastSeen := some st.now } else u) }

/-- JavaScript Array.slice with one argument: a non-negative start drops that
many elements from the front, a negative start keeps the last abs(start)
elements.  MemStorage.getMessages calls it as slice(-limit). -/
def jsSlice {α : Type} (l : List α) (n : Int) : List α :=
  if 0 ≤ n then l.drop n.toNat
  else l.drop (l.length - min (-n).toNat l.length)

/-- Comparator of MemStorage.getMessages: ascending timestamp. -/
def tsLe (a b : Message) : Prop := a.timestamp ≤ b.timestamp

instance : DecidableRel tsLe :=
  fun a b => inferInstanceAs (Decidable (a.timestamp ≤ b.timestamp))

instance : IsTotal Message tsLe :=
  ⟨fun a b => Nat.le_total a.timestamp b.timestamp⟩

instance : IsTrans Message tsLe :=
  ⟨fun _ _ _ h1 h2 => Nat.le_trans h1 h2⟩

/-- Scope filter of MemStorage.getMessages.  Private scope: chatType is
private and the stored counterpart strictly equals the query userId (strict
equality: a null stored counterpart never equals an absent query parameter).
Any other requested scope: chatType general or null. -/
def scopeFilter (chatType : String) (userId : Option String) (m : Message) : Bool :=
  if chatType = "private" then
    decide (m.chatType = some "private") &&
      (match userId with
       | some u => decide (m.privateChatUserId = some u)
       | none => false)
  else
    decide (m.chatType = some "general") || decide (m.chatType = none)

/-- MemStorage.getMessages: drop typing placeholders, keep the requested
scope, sort ascending by timestamp (stable), keep the last limit elements via
slice(-limit), and attach the author user where one resolves. -/
def getMessages (st : StorageState) (limit : Int) (chatType : String) (userId : Option String) :
    List (Message × Option User) :=
  let filtered := (st.messages.filter (fun m => !m.isTyping)).filter (scopeFilter chatType userId)
  let sorted := List.insertionSort tsLe filtered
  (jsSlice sorted (-limit)).map (fun m => (m, (jsTruthy m.userId).bind (getUser st)))

/-- GET /api/messages (server/routes.ts): limit defaults to 50 when the query
parameter is absent, chatType falls back through falsy-or to general, userId
is passed through as given. -/
def getMessagesRoute (st : StorageState) (limitParam : Option Int)
    (chatTypeParam : Option String) (userIdParam : Option String) :
    List (Message × Option User) :=
  getMessages st (limitParam.getD 50) (jsOrString chatTypeParam "general") userIdParam

/-- Observable effects, in emission order.  fetchRequest marks the invocation
of the external generation capability; messageCreated, messageUpdate and
userStatus are broadcasts over the websocket fan-out; httpResponse is
res.json on the POST path. -/
inductive Event where
  | fetchRequest : Event
  | messageCreated (m : Message) (user : Option User) : Event
  | messageUpdate (id : Nat) (content : String) (isComplete : Bool) : Event
  | userStatus (userId : String) (isOnline : Bool) : Event
  | httpResponse (m : Message) (user : Option User) : Event
deriving DecidableEq

/-- Environment of one generation call: the configured credential (empty
string means OPENROUTER_API_KEY is unset), whether the fetch reaches a usable
streaming response (response.ok with a body), the delta contents the stream
delivers in order (the parsed delta content of each data line; an empty
string is a delta carrying no content), and whether the stream raises after
those deltas instead of ending cleanly. -/
structure GenEnv where
  apiKey : String
  fetchOk : Bool
  deltas : List String
  streamRaises : Bool
deriving DecidableEq

/-- Apology string returned when no API key is configured (routes.ts). -/
def apologyNoKey : String :=
  "Извините, но я не настроен для ответов прямо сейчас. Пожалуйста, обратитесь к администратору по поводу конфигурации API ключа."

/-- Apology string returned from the catch-all handler (routes.ts). -/
def apologyFailure : String :=
  "У меня сейчас технические трудности. Попробуйте через момент, или свяжитесь с командой напрямую, если это срочно."

/-- Streaming loop of callQwenAPI: for each delta with non-empty content,
extend the accumulator, persist the full accumulator under the placeholder id
through storage.updateMessage, and broadcast a message_update with isComplete
false.  Returns the final storage, the emitted events and the final
accumulator. -/
def runStream (st : StorageState) (id : Nat) (acc : String) :
    List String → StorageState × List Event × String
  | [] => (st, [], acc)
  | d :: rest =>
    if d = "" then runStream st id acc rest
    else
      let acc2 := acc ++ d
      let st2 := updateMessage st id { content := some acc2 }
      let out := runStream st2 id acc2 rest
      (out.1, Event.messageUpdate id acc2 false :: out.2.1, out.2.2)

/-- The insert record of the AI placeholder created by callQwenAPI: empty
content, no author, isAI true, isTyping false, scope and counterpart
inherited from the triggering message. -/
def aiPlaceholderInsert (chatType : Option String) (privateChatUserId : Option String) :
    InsertMessage :=
  { content := ""
    userId := none
    isAI := some true
    isTyping := some false
    chatType := some (jsOrString chatType "general")
    privateChatUserId := privateChatUserId }

/-- callQwenAPI (server/routes.ts).  Returns the new storage, the emitted
events and the string the function returns to its caller.  With no API key
it returns the no-key apology at once, before any fetch and before any
placeholder exists.  Otherwise it performs the fetch; a failed fetch
(non-ok status or missing body) throws into the catch-all, which returns the
failure apology.  Only after a successful fetch does it create and broadcast
the empty placeholder and consume the stream; a stream that raises mid-read
also lands in the catch-all, skipping the final isComplete broadcast.  The
prompt argument only feeds the external request body (after mention
stripping), which this model treats as opaque. -/
def callQwenAPI (env : GenEnv) (st : StorageState) (_prompt : String)
    (chatType : Option String) (privateChatUserId : Option String) :
    StorageState × List Event × String :=
  if env.apiKey = "" then
    (st, [], apologyNoKey)
  else if !env.fetchOk then
    (st, [Event.fetchRequest], apologyFailure)
  else
    let created := createMessage st (aiPlaceholderInsert chatType privateChatUserId)
    let aiMessage := created.1
    let st1 := created.2
    let streamed := runStream st1 aiMessage.id "" env.deltas
    let evs := Event.fetchRequest :: Event.messageCreated aiMessage none :: streamed.2.1
    if env.streamRaises then
      (streamed.1, evs, apologyFailure)
    else
      (streamed.1, evs ++ [Event.messageUpdate aiMessage.id streamed.2.2 true], streamed.2.2)

/-- AI-dispatch predicate of POST /api/messages: isAiActive is the raw body
field compared with strict inequality against false (hence true when
absent), chatType falls back through falsy-or to general. -/
def shouldCallAI (body : InsertMessage) (isAiActiveRaw : Option Bool) : Bool :=
  let isAiActive := !(decide (isAiActiveRaw = some false))
  let chatType := jsOrString body.chatType "general"
  !(jsOrBool body.isAI) &&
    (decide (chatType = "private") || (decide (chatType = "general") && isAiActive))

/-- POST /api/messages (server/routes.ts): persist the message, enrich it
with its author, broadcast the created message, answer the HTTP caller with
the same enriched record, then, when shouldCallAI holds, run the decoupled
AI turn, whose return value is discarded. -/
def postMessages (env : GenEnv) (st : StorageState)
    (body : InsertMessage) (isAiActiveRaw : Option Bool) : StorageState × List Event :=
  let created := createMessage st body
  let message := created.1
  let st1 := created.2
  let user := (jsTruthy message.userId).bind (getUser st1)
  let evs := [Event.messageCreated message user, Event.httpResponse message user]
  if shouldCallAI body isAiActiveRaw then
    let turn := callQwenAPI env st1 body.content
      (some (jsOrString body.chatType "general")) (jsTruthy body.privateChatUserId)
    (turn.1, evs ++ turn.2.1)
  else
    (st1, evs)

/-- Per-connection registry entry (routes.ts ClientInfo). -/
structure ClientInfo where
  userId : Option String
deriving DecidableEq

/-- Server state: the connection registry (connection handle to client info)
plus the storage backend. -/
structure ServerState where
  clients : List (Nat × ClientInfo)
  storage : StorageState
deriving DecidableEq

def lookupClient (cs : List (Nat × ClientInfo)) (ws : Nat) : Option ClientInfo :=
  (cs.find? (fun c => c.1 = ws)).map (fun c => c.2)

def removeClient (cs : List (Nat × ClientInfo)) (ws : Nat) : List (Nat × ClientInfo) :=
  cs.filter (fun c => !(decide (c.1 = ws)))

/-- Websocket close handler (server/routes.ts).  setOnlineRejects models the
awaited storage.updateUserOnlineStatus promise rejecting (possible with the
PostgresStorage backend).  The handler body has no try/catch: a rejection
aborts the async callback before clients.delete runs, and the handler itself
logs nothing. -/
def closeHandler (st : ServerState) (ws : Nat) (setOnlineRejects : Bool) :
    ServerState × List Event :=
  match lookupClient st.clients ws with
  | some info =>
    match info.userId with
    | some uid =>
      if setOnlineRejects then
        (st, [])
      else
        ({ clients := removeClient st.clients ws
           storage := updateUserOnlineStatus st.storage uid false },
         [Event.userStatus uid false])
    | none => ({ st with clients := removeClient st.clients ws }, [])
  | none => ({ st with clients := removeClient st.clients ws }, [])

/-- Typing placeholder records of a given user in the store. -/
def typingFor (st : StorageState) (u : String) : List Message :=
  st.messages.filter (fun m => decide (m.userId = some u) && m.isTyping)

/-- Invariant claimed for typing placeholders of one user: at most one, each
with empty content. -/
def typingInv (st : StorageState) (u : String) : Prop :=
  (typingFor st u).length ≤ 1 ∧ ∀ m ∈ typingFor st u, m.content = ""

/-- A sequence of setTyping calls applied in order. -/
def setTypingSeq (st : StorageState) (calls : List (String × Bool)) : StorageState :=
  calls.foldl (fun s c => updateMessageTyping s c.1 c.2) st

/-- Contents carried by message_update broadcasts for a given id, in emission
order. -/
def updateContents (id : Nat) (evs : List Event) : List String :=
  evs.filterMap (fun e =>
    match e with
    | Event.messageUpdate i c _ => if i = id then some c else none
    | _ => none)

/-- Whether an event is a message_update broadcast. -/
def isUpdateEvent : Event → Bool
  | Event.messageUpdate _ _ _ => true
  | _ => false

/-- Whether an event is a message_update broadcast with isComplete true. -/
def isCompleteUpdate : Event → Bool
  | Event.messageUpdate _ _ b => b
  | _ => false

/-- Whether an event is the invocation of the external capability. -/
def isFetchEvent : Event → Bool
  | Event.fetchRequest => true
  | _ => false

/-- Whether an event is a message-created broadcast of an AI record. -/
def isAICreatedEvent : Event → Bool
  | Event.messageCreated m _ => m.isAI
  | _ => false

/-- message-created broadcasts whose message is an AI record. -/
def aiCreatedEvents (evs : List Event) : List Event :=
  evs.filter isAICreatedEvent

/-- Index of the first event satisfying the predicate. -/
def firstIdx (p : Event → Bool) (evs : List Event) : Option Nat :=
  evs.findIdx? p

/-- s extends to t: t is s with (possibly empty) extra text appended. -/
def PrefixExt (s t : String) : Prop := ∃ u, s.data ++ u = t.data

/-- Content of the stored message with the given id, when one exists. -/
def msgContent (st : StorageState) (id : Nat) : Option String :=
  (st.messages.find? (fun m => m.id = id)).map (fun m => m.content)

/-- Accumulator values broadcast by the streaming loop for a given delta
list, starting from a given accumulator. -/
def streamContents (acc : String) : List String → List String
  | [] => []
  | d :: rest =>
    if d = "" then streamContents acc rest
    else (acc ++ d) :: streamContents (acc ++ d) rest

/-- Environment truncated to the first k deltas: the intermediate point of a
stream after k chunks. -/
def truncEnv (env : GenEnv) (k : Nat) : GenEnv :=
  { env with deltas := env.deltas.take k }

/-- Sample: an environment with no API key configured. -/
def envNoKey : GenEnv :=
  { apiKey := "", fetchOk := false, deltas := [], streamRaises := false }

/-- Sample: a reachable environment delivering one delta. -/
def envOk : GenEnv :=
  { apiKey := "k", fetchOk := true, deltas := ["hi"], streamRaises := false }

/-- Sample: a configured key but an unreachable upstream endpoint. -/
def envFetchFail : GenEnv :=
  { apiKey := "k", fetchOk := false, deltas := [], streamRaises := false }

/-- Sample: a stream that delivers one delta and then raises. -/
def envRaise : GenEnv :=
  { apiKey := "k", fetchOk := true, deltas := ["hi"], streamRaises := true }

/-- Sample: an eligible general-scope user message body. -/
def bodyGen : InsertMessage := { content := "hi", userId := some "u1" }

/-- Sample: a store holding one general message. -/
def stB : StorageState := (createMessage emptyStorage { content := "m1" }).2

/-- Sample: a registry with one authenticated connection. -/
def srvB : ServerState :=
  { clients := [(0, { userId := some "u1" })], storage := emptyStorage }

/-- Sample: a store holding one ordinary message, for frame checks. -/
def stA : StorageState := (createMessage emptyStorage bodyGen).2

/-- Sample: a content-only partial update. -/
def updA : MessageUpdates := { content := some "x" }

/-! Helper lemmas -/

/-- Strict inequality against false on an optional boolean coincides with
defaulting the flag to true. -/
theorem raw_flag_eq (raw : Option Bool) : (!(decide (raw = some false))) = raw.getD true := by
  cases raw with
  | none => rfl
  | some b => cases b <;> rfl

@[simp] theorem applyUpdates_id (m : Message) (u : MessageUpdates) :
    (applyUpdates m u).id = m.id := rfl

@[simp] theorem applyUpdates_timestamp (m : Message) (u : MessageUpdates) :
    (applyUpdates m u).timestamp = m.timestamp := rfl

/-- Filtering with p after keeping only the elements refuting p gives nothing. -/
theorem filter_not_self {α : Type} (l : List α) (p : α → Bool) :
    (l.filter (fun m => !(p m))).filter p = [] := by
  rw [List.filter_filter]
  simp

/-- A pre-filter that every p-element survives does not change a p-filter. -/
theorem filter_of_imp {α : Type} (l : List α) (p q : α → Bool)
    (h : ∀ a, p a = true → q a = true) : (l.filter q).filter p = l.filter p := by
  induction l with
  | nil => rfl
  | cons a t ih =>
    cases hq : q a with
    | true =>
      cases hp : p a with
      | true => simp [List.filter_cons, hq, hp, ih]
      | false => simp [List.filter_cons, hq, hp, ih]
    | false =>
      have hp : p a = false := by
        cases hpa : p a with
        | false => rfl
        | true => exact absurd (h a hpa) (by simp [hq])
      simp [List.filter_cons, hq, hp, ih]

/-- The id-targeted rewrite map of updateMessage leaves every other-id
message untouched. -/
theorem filter_ne_map_update (l : List Message) (id : Nat) (u : MessageUpdates) :
    (l.map (fun m => if m.id = id then applyUpdates m u else m)).filter
        (fun m => !(decide (m.id = id)))
      = l.filter (fun m => !(decide (m.id = id))) := by
  induction l with
  | nil => rfl
  | cons a t ih =>
    by_cases h : a.id = id
    · simp [List.filter_cons, h, ih]
    · simp [List.filter_cons, h, ih]

/-- Effect of one setTyping call on the typing records of any user. -/
theorem typingFor_update (st : StorageState) (v u : String) (b : Bool) :
    typingFor (updateMessageTyping st v b) u =
      if v = u then (if b then [typingRecord v st.nextId st.now] else [])
      else typingFor st u := by
  by_cases hvu : v = u
  · subst hvu
    cases b with
    | true =>
      simp only [typingFor, updateMessageTyping, if_pos rfl, if_true]
      rw [List.filter_append, filter_not_self]
      simp [typingRecord]
    | false =>
      simp only [typingFor, updateMessageTyping, if_pos rfl, if_false, Bool.false_eq_true]
      rw [filter_not_self]
      simp
  · have himp : ∀ m : Message, (decide (m.userId = some u) && m.isTyping) = true →
        (!(decide (m.userId = some v) && m.isTyping)) = true := by
      intro m hm
      have hmu : m.userId = some u := by
        have h2 := hm
        simp only [Bool.and_eq_true, decide_eq_true_eq] at h2
        exact h2.1
      have hne : u ≠ v := fun hh => hvu hh.symm
      simp [hmu, hne]
    cases b with
    | true =>
      simp only [typingFor, updateMessageTyping, if_neg hvu, if_true]
      rw [List.filter_append, filter_of_imp _ _ _ himp]
      simp [typingRecord, hvu]
    | false =>
      simp only [typingFor, updateMessageTyping, if_neg hvu, if_false, Bool.false_eq_true]
      rw [filter_of_imp _ _ _ himp]

/-- The per-user typing invariant survives any sequence of setTyping calls. -/
theorem typingInv_seq (u : String) : ∀ (calls : List (String × Bool)) (st : StorageState),
    typingInv st u → typingInv (setTypingSeq st calls) u := by
  intro calls
  induction calls with
  | nil => intro st h; exact h
  | cons c rest ih =>
    intro st h
    have h1 : typingInv (updateMessageTyping st c.1 c.2) u := by
      unfold typingInv
      rw [typingFor_update]
      by_cases hc : c.1 = u
      · cases hb : c.2 <;> simp [hc, typingRecord]
      · simp only [if_neg hc]
        exact h
    exact ih _ h1

/-! Claim theorems -/

/-- Claim C5: a submitted message triggers an AI turn if and only if it is
not AI-authored and either its effective chat scope is private, or it is
general and the caller's AI-activation flag (defaulting to true when absent)
is true. -/
theorem c5_ai_eligibility (body : InsertMessage) (raw : Option Bool) :
    shouldCallAI body raw = true ↔
      (jsOrBool body.isAI = false ∧
        (jsOrString body.chatType "general" = "private" ∨
          (jsOrString body.chatType "general" = "general" ∧ raw.getD true = true))) := by
  unfold shouldCallAI
  rw [raw_flag_eq]
  simp only [Bool.and_eq_true, Bool.or_eq_true, decide_eq_true_eq, Bool.not_eq_true']

/-- Claim C6: on the POST message path the created-message broadcast is
emitted before the HTTP response, and both carry the very same enriched
message (hence the same id). -/
theorem c6_broadcast_precedes_response (env : GenEnv) (st : StorageState)
    (body : InsertMessage) (raw : Option Bool) :
    ∃ m u rest, (postMessages env st body raw).2 =
      Event.messageCreated m u :: Event.httpResponse m u :: rest := by
  cases h : shouldCallAI body raw <;>
    simp only [postMessages, h] <;>
    exact ⟨_, _, _, rfl⟩

/-- Claim C7: any single setTyping call leaves at most one empty-content
typing record for each user, the invariant is kept along every prefix of a
sequence of setTyping calls, and two consecutive setTyping(u, true) calls
leave exactly one typing record for u. -/
theorem c7_typing_idempotent (st : StorageState) (u : String) (calls : List (String × Bool))
    (h : typingInv st u) :
    (∀ k, typingInv (setTypingSeq st (calls.take k)) u) ∧
    (typingFor (updateMessageTyping (updateMessageTyping st u true) u true) u).length = 1 := by
  constructor
  · intro k
    exact typingInv_seq u (calls.take k) st h
  · rw [typingFor_update]
    simp

/-- Witness for C7 at the empty store. -/
theorem c7_witness :
    typingInv emptyStorage "u1" ∧
    ((∀ k, typingInv (setTypingSeq emptyStorage ([("u1", true)].take k)) "u1") ∧
      (typingFor (updateMessageTyping (updateMessageTyping emptyStorage "u1" true) "u1" true)
        "u1").length = 1) :=
  ⟨by simp [typingInv, typingFor, emptyStorage],
   c7_typing_idempotent emptyStorage "u1" [("u1", true)]
     (by simp [typingInv, typingFor, emptyStorage])⟩

/-- Claim C9 (amended): the close handler removes the connection and emits
the presence broadcast when the identity-attached persistence write
succeeds; a rejecting write aborts the handler before the removal, leaving
the registry unchanged and emitting (and logging) nothing; for a connection
without identity the removal is unconditional. -/
theorem c9_close_registry (st : ServerState) (ws : Nat) (uid : String)
    (h : lookupClient st.clients ws = some { userId := some uid }) :
    closeHandler st ws true = (st, []) ∧
    (closeHandler st ws false).1.clients = removeClient st.clients ws ∧
    (closeHandler st ws false).1.storage = updateUserOnlineStatus st.storage uid false ∧
    (closeHandler st ws false).2 = [Event.userStatus uid false] ∧
    (∀ st2 ws2, lookupClient st2.clients ws2 = none →
      (closeHandler st2 ws2 true).1.clients = removeClient st2.clients ws2) ∧
    (∀ st2 ws2, lookupClient st2.clients ws2 = some { userId := none } →
      (closeHandler st2 ws2 true).1.clients = removeClient st2.clients ws2) := by
  refine ⟨?_, ?_, ?_, ?_, ?_, ?_⟩
  · simp [closeHandler, h]
  · simp [closeHandler, h]
  · simp [closeHandler, h]
  · simp [closeHandler, h]
  · intro st2 ws2 h2
    simp [closeHandler, h2]
  · intro st2 ws2 h2
    simp [closeHandler, h2]

/-- Counterexample for C9 as stated: with an authenticated connection whose
setOnline write rejects, the close handler leaves the connection in the
registry and emits nothing, so removal is not unconditional. -/
theorem c9_counterexample :
    (closeHandler srvB 0 true).1.clients = [(0, { userId := some "u1" })] ∧
    (closeHandler srvB 0 true).2 = [] := by
  constructor <;> rfl

/-- Witness for C9 at a concrete registry. -/
theorem c9_witness :
    closeHandler srvB 0 true = (srvB, []) ∧
    (closeHandler srvB 0 false).1.clients = removeClient srvB.clients 0 := by
  have h := c9_close_registry srvB 0 "u1" (by decide)
  exact ⟨h.1, h.2.1⟩

/-- Claim C10: updateMessage on a missing id is a silent no-op; messages
with a different id are never touched, so an update cannot be misapplied;
on the targeted message id and timestamp never change and absent update
keys leave their fields unchanged while present keys set them. -/
theorem c10_updateMessage_frame (st : StorageState) (id : Nat) (u : MessageUpdates) :
    ((∀ m ∈ st.messages, m.id ≠ id) → updateMessage st id u = st) ∧
    ((updateMessage st id u).messages.filter (fun m => !(decide (m.id = id)))
        = st.messages.filter (fun m => !(decide (m.id = id)))) ∧
    (∀ m : Message, (applyUpdates m u).id = m.id ∧ (applyUpdates m u).timestamp = m.timestamp ∧
      (u.content = none → (applyUpdates m u).content = m.content) ∧
      (∀ c, u.content = some c → (applyUpdates m u).content = c)) := by
  refine ⟨?_, ?_, ?_⟩
  · intro h
    have hn : st.messages.find? (fun m => m.id = id) = none := by
      rw [List.find?_eq_none]
      intro a ha
      simpa using h a ha
    simp [updateMessage, hn]
  · cases hf : st.messages.find? (fun m => m.id = id) with
    | none => simp [updateMessage, hf]
    | some m0 =>
      simp only [updateMessage, hf]
      exact filter_ne_map_update st.messages id u
  · intro m
    refine ⟨rfl, rfl, ?_, ?_⟩
    · intro hc
      simp [applyUpdates, hc]
    · intro c hc
      simp [applyUpdates, hc]

/-- Witness for C10 at a concrete store and a missing id. -/
theorem c10_witness :
    (∀ m ∈ stA.messages, m.id ≠ 99) ∧ updateMessage stA 99 updA = stA :=
  ⟨by decide, (c10_updateMessage_frame stA 99 updA).1 (by decide)⟩

/-- The events of the streaming loop are exactly one incomplete
message_update per accumulator value. -/
theorem runStream_events (id : Nat) : ∀ (ds : List String) (st : StorageState) (acc : String),
    (runStream st id acc ds).2.1 =
      (streamContents acc ds).map (fun c => Event.messageUpdate id c false) := by
  intro ds
  induction ds with
  | nil => intro st acc; rfl
  | cons d rest ih =>
    intro st acc
    by_cases hd : d = ""
    · simp only [runStream, streamContents, if_pos hd]
      exact ih _ _
    · simp only [runStream, streamContents, if_neg hd, List.map_cons]
      rw [ih]

/-- The return value of the streaming loop is the last accumulator value. -/
theorem runStream_final (id : Nat) : ∀ (ds : List String) (st : StorageState) (acc : String),
    (runStream st id acc ds).2.2 = (streamContents acc ds).getLastD acc := by
  intro ds
  induction ds with
  | nil => intro st acc; rfl
  | cons d rest ih =>
    intro st acc
    by_cases hd : d = ""
    · simp only [runStream, streamContents, if_pos hd]
      exact ih _ _
    · simp only [runStream, streamContents, if_neg hd, List.getLastD_cons]
      rw [ih]

/-- Updating a message rewrites only the targeted id, in place. -/
theorem find?_map_update (l : List Message) (id : Nat) (u : MessageUpdates) :
    (l.map (fun m => if m.id = id then applyUpdates m u else m)).find? (fun m => m.id = id)
      = (l.find? (fun m => m.id = id)).map (fun m => applyUpdates m u) := by
  induction l with
  | nil => rfl
  | cons a t ih =>
    by_cases hid : a.id = id
    · simp [List.find?_cons, hid]
    · simp [List.find?_cons, hid, ih]

/-- A content update on an existing id stores exactly the given content. -/
theorem msgContent_updateMessage (st : StorageState) (id : Nat) (c2 : String)
    (h : (msgContent st id).isSome = true) :
    msgContent (updateMessage st id { content := some c2 }) id = some c2 := by
  unfold msgContent at h ⊢
  unfold updateMessage
  cases hf : st.messages.find? (fun m => m.id = id) with
  | none => rw [hf] at h; simp at h
  | some m0 =>
    simp only [hf]
    rw [find?_map_update, hf]
    simp [applyUpdates]

/-- Persistence invariant of the streaming loop: starting from a stored
content equal to the accumulator, the stored content after the loop is the
last broadcast accumulator. -/
theorem runStream_msgContent (id : Nat) : ∀ (ds : List String) (st : StorageState) (acc : String),
    msgContent st id = some acc →
    msgContent (runStream st id acc ds).1 id =
      some ((streamContents acc ds).getLastD acc) := by
  intro ds
  induction ds with
  | nil =>
    intro st acc h
    simpa [runStream, streamContents] using h
  | cons d rest ih =>
    intro st acc h
    by_cases hd : d = ""
    · simp only [runStream, streamContents, if_pos hd]
      exact ih _ _ h
    · have h2 : msgContent (updateMessage st id { content := some (acc ++ d) }) id
          = some (acc ++ d) :=
        msgContent_updateMessage st id (acc ++ d) (by rw [h]; rfl)
      have h3 := ih (updateMessage st id { content := some (acc ++ d) }) (acc ++ d) h2
      simp only [runStream, streamContents, if_neg hd, List.getLastD_cons]
      exact h3

/-- Each broadcast accumulator extends the previous one. -/
theorem streamContents_chain : ∀ (ds : List String) (acc : String),
    List.Chain' PrefixExt (acc :: streamContents acc ds) := by
  intro ds
  induction ds with
  | nil => intro acc; exact List.chain'_singleton acc
  | cons d rest ih =>
    intro acc
    by_cases hd : d = ""
    · simp only [streamContents, if_pos hd]
      exact ih acc
    · simp only [streamContents, if_neg hd]
      exact List.chain'_cons.mpr ⟨⟨d.data, rfl⟩, ih (acc ++ d)⟩

/-- A chain stays a chain after appending its own last element once more. -/
theorem chain'_snoc_lastD {R : String → String → Prop} (hrefl : ∀ a : String, R a a) :
    ∀ (l : List String) (d : String), List.Chain' R (d :: l) →
      List.Chain' R (l ++ [l.getLastD d]) := by
  intro l
  induction l with
  | nil =>
    intro d _
    exact List.chain'_singleton d
  | cons a t ih =>
    intro d h
    have h1 : List.Chain' R (a :: t) := h.tail
    have h2 := ih a h1
    rw [List.getLastD_cons]
    cases t with
    | nil => exact List.chain'_cons.mpr ⟨hrefl a, List.chain'_singleton a⟩
    | cons b t2 =>
      have hab : R a b := (List.chain'_cons.mp h1).1
      exact List.chain'_cons.mpr ⟨hab, h2⟩

/-- Extension only grows the text. -/
theorem prefixExt_length (s t : String) (h : PrefixExt s t) : s.length ≤ t.length := by
  obtain ⟨u, hu⟩ := h
  have h2 : s.data.length + u.length = t.data.length := by
    rw [← hu]
    exact (List.length_append _ _).symm
  have h3 : s.data.length ≤ t.data.length := by omega
  exact h3

@[simp] theorem createMessage_fst_id (st : StorageState) (im : InsertMessage) :
    (createMessage st im).1.id = st.nextId := rfl

/-- Leading fetch and created events carry no update content. -/
theorem updateContents_skip (id : Nat) (m : Message) (u2 : Option User) (evs : List Event) :
    updateContents id (Event.fetchRequest :: Event.messageCreated m u2 :: evs)
      = updateContents id evs := by
  simp [updateContents]

/-- Update events for the own id keep exactly their contents. -/
theorem updateContents_map_self (id : Nat) (cs : List String) :
    updateContents id (cs.map (fun c => Event.messageUpdate id c false)) = cs := by
  induction cs with
  | nil => rfl
  | cons c rest ih => simp [updateContents] at ih ⊢; exact ih

/-- updateContents distributes over append. -/
theorem updateContents_append (id : Nat) (l1 l2 : List Event) :
    updateContents id (l1 ++ l2) = updateContents id l1 ++ updateContents id l2 := by
  simp [updateContents, List.filterMap_append]

/-- A single complete update for the own id contributes its content. -/
theorem updateContents_complete (id : Nat) (c : String) :
    updateContents id [Event.messageUpdate id c true] = [c] := by
  simp [updateContents]

/-- The message_update contents of one reachable turn: the accumulators of
the stream, closed by a repeat of the last one as the isComplete broadcast
when the stream ends cleanly. -/
theorem updateContents_turn (env : GenEnv) (st : StorageState) (p : String)
    (ct pcid : Option String) (hk : ¬ env.apiKey = "") (hok : env.fetchOk = true) :
    updateContents st.nextId (callQwenAPI env st p ct pcid).2.1 =
      streamContents "" env.deltas ++
        (if env.streamRaises then [] else [(streamContents "" env.deltas).getLastD ""]) := by
  unfold callQwenAPI
  rw [if_neg hk]
  simp only [hok, Bool.not_true, Bool.false_eq_true, if_false]
  cases hraise : env.streamRaises with
  | true =>
    simp only [if_pos rfl, if_true]
    rw [runStream_events]
    simp only [createMessage_fst_id]
    rw [updateContents_skip, updateContents_map_self]
    simp
  | false =>
    simp only [Bool.false_eq_true, if_false]
    rw [runStream_events, runStream_final]
    simp only [createMessage_fst_id]
    rw [updateContents_append, updateContents_skip, updateContents_map_self,
      updateContents_complete]

@[simp] theorem createMessage_fst_isAI (st : StorageState) (im : InsertMessage) :
    (createMessage st im).1.isAI = jsOrBool im.isAI := rfl

@[simp] theorem createMessage_fst_content (st : StorageState) (im : InsertMessage) :
    (createMessage st im).1.content = im.content := rfl

/-- aiCreatedEvents distributes over append. -/
theorem aiCreatedEvents_append (l1 l2 : List Event) :
    aiCreatedEvents (l1 ++ l2) = aiCreatedEvents l1 ++ aiCreatedEvents l2 :=
  List.filter_append l1 l2

/-- A non-AI-created event is dropped. -/
theorem aiCreatedEvents_cons_skip (e : Event) (l : List Event)
    (h : isAICreatedEvent e = false) : aiCreatedEvents (e :: l) = aiCreatedEvents l := by
  simp [aiCreatedEvents, List.filter_cons, h]

/-- An AI-created event is kept. -/
theorem aiCreatedEvents_cons_keep (e : Event) (l : List Event)
    (h : isAICreatedEvent e = true) : aiCreatedEvents (e :: l) = e :: aiCreatedEvents l := by
  simp [aiCreatedEvents, List.filter_cons, h]

/-- Streaming update broadcasts are never created-message broadcasts. -/
theorem aiCreated_updates (cs : List String) (id : Nat) :
    aiCreatedEvents (cs.map (fun c => Event.messageUpdate id c false)) = [] := by
  induction cs with
  | nil => rfl
  | cons c rest ih =>
    simp only [List.map_cons]
    rw [aiCreatedEvents_cons_skip (Event.messageUpdate id c false) _ rfl]
    exact ih

/-- A triggered turn that is not AI-authored has the not-AI flag false. -/
theorem shouldCallAI_not_ai (body : InsertMessage) (raw : Option Bool)
    (h : shouldCallAI body raw = true) : jsOrBool body.isAI = false := by
  unfold shouldCallAI at h
  simp only [Bool.and_eq_true, Bool.not_eq_true'] at h
  exact h.1

/-- One generation call broadcasts at most one AI created-message event, and
exactly one empty AI placeholder when the capability is reachable. -/
theorem aiCreated_turn (env : GenEnv) (st : StorageState) (p : String)
    (ct pcid : Option String) :
    (aiCreatedEvents (callQwenAPI env st p ct pcid).2.1).length ≤ 1 ∧
    (env.apiKey ≠ "" → env.fetchOk = true →
      ∃ ph, aiCreatedEvents (callQwenAPI env st p ct pcid).2.1 =
          [Event.messageCreated ph none] ∧ ph.isAI = true ∧ ph.content = "") := by
  by_cases hk : env.apiKey = ""
  · constructor
    · simp [callQwenAPI, hk, aiCreatedEvents]
    · intro hk2
      exact absurd hk hk2
  · cases hok : env.fetchOk with
    | false =>
      constructor
      · simp [callQwenAPI, hk, hok, aiCreatedEvents, isAICreatedEvent]
      · intro _ hok2
        cases hok2
    | true =>
      have key : ∃ ph, aiCreatedEvents (callQwenAPI env st p ct pcid).2.1 =
          [Event.messageCreated ph none] ∧ ph.isAI = true ∧ ph.content = "" := by
        unfold callQwenAPI
        rw [if_neg hk]
        simp only [hok, Bool.not_true, Bool.false_eq_true, if_false]
        cases hr : env.streamRaises with
        | true =>
          simp only [if_pos rfl, if_true]
          refine ⟨(createMessage st (aiPlaceholderInsert ct pcid)).1, ?_, rfl, rfl⟩
          rw [runStream_events]
          simp only [createMessage_fst_id]
          rw [aiCreatedEvents_cons_skip Event.fetchRequest _ rfl,
            aiCreatedEvents_cons_keep
              (Event.messageCreated (createMessage st (aiPlaceholderInsert ct pcid)).1 none) _ rfl,
            aiCreated_updates]
        | false =>
          simp only [Bool.false_eq_true, if_false]
          refine ⟨(createMessage st (aiPlaceholderInsert ct pcid)).1, ?_, rfl, rfl⟩
          rw [runStream_events]
          simp only [createMessage_fst_id]
          rw [aiCreatedEvents_append,
            aiCreatedEvents_cons_skip Event.fetchRequest _ rfl,
            aiCreatedEvents_cons_keep
              (Event.messageCreated (createMessage st (aiPlaceholderInsert ct pcid)).1 none) _ rfl,
            aiCreated_updates]
          rfl
      obtain ⟨ph, hev, h1, h2⟩ := key
      constructor
      · rw [hev]
        exact Nat.le_refl 1
      · intro _ _
        exact ⟨ph, hev, h1, h2⟩

/-- A fresh placeholder is stored with exactly its insert content. -/
theorem msgContent_createMessage (st : StorageState) (im : InsertMessage)
    (hfresh : ∀ m ∈ st.messages, m.id ≠ st.nextId) :
    msgContent (createMessage st im).2 st.nextId = some im.content := by
  unfold msgContent createMessage
  rw [List.find?_append]
  have h1 : st.messages.find? (fun m => m.id = st.nextId) = none :=
    List.find?_eq_none.mpr (fun a ha => by simpa using hfresh a ha)
  rw [h1]
  simp

/-- Claim C1: evaluation of the generator at the failing inputs.  With no
API key configured it returns the no-key apology to its caller with no
events and no storage change, so no placeholder exists, nothing is
broadcast, and the POST path discards the returned apology (its whole event
trace carries no message_update at all).  With the fetch failing it returns
the failure apology after only the fetch attempt.  With a mid-stream raise
the placeholder keeps the partial content, no isComplete broadcast and no
apology broadcast is ever emitted: the apology strings live only in the
discarded return value. -/
theorem c1_failure_apology_never_broadcast :
    callQwenAPI envNoKey emptyStorage "q" (some "general") none
        = (emptyStorage, [], apologyNoKey) ∧
    callQwenAPI envFetchFail emptyStorage "q" (some "general") none
        = (emptyStorage, [Event.fetchRequest], apologyFailure) ∧
    (callQwenAPI envRaise emptyStorage "q" (some "general") none).2.2 = apologyFailure ∧
    ((callQwenAPI envRaise emptyStorage "q" (some "general") none).2.1).filter
        isCompleteUpdate = [] ∧
    updateContents 0 (callQwenAPI envRaise emptyStorage "q" (some "general") none).2.1
        = ["hi"] ∧
    msgContent (callQwenAPI envRaise emptyStorage "q" (some "general") none).1 0
        = some "hi" ∧
    ((postMessages envNoKey emptyStorage bodyGen none).2).filter isUpdateEvent = [] := by
  refine ⟨rfl, rfl, rfl, rfl, rfl, rfl, rfl⟩

/-- Counterexample for C2 as stated: an eligible general message with AI
active but no API key configured produces zero AI placeholder broadcasts,
not exactly one. -/
theorem c2_counterexample :
    (aiCreatedEvents (postMessages envNoKey emptyStorage bodyGen none).2).length = 0 ∧
    ¬ (aiCreatedEvents (postMessages envNoKey emptyStorage bodyGen none).2).length = 1 := by
  exact ⟨rfl, by decide⟩

/-- Claim C2 (amended): a submitted message yields at most one AI
placeholder created-message broadcast, and exactly one — empty and AI-tagged
— when the turn is triggered and the generation capability is reachable. -/
theorem c2_at_most_one_placeholder (env : GenEnv) (st : StorageState)
    (body : InsertMessage) (raw : Option Bool) :
    (aiCreatedEvents (postMessages env st body raw).2).length ≤ 1 ∧
    (shouldCallAI body raw = true → env.apiKey ≠ "" → env.fetchOk = true →
      ∃ ph, aiCreatedEvents (postMessages env st body raw).2 =
          [Event.messageCreated ph none] ∧ ph.isAI = true ∧ ph.content = "") := by
  have hskip : ∀ (m2 : Message) (u2 : Option User), m2.isAI = false →
      aiCreatedEvents [Event.messageCreated m2 u2, Event.httpResponse m2 u2] = [] := by
    intro m2 u2 hm2
    rw [aiCreatedEvents_cons_skip (Event.messageCreated m2 u2) _
      (by simpa [isAICreatedEvent] using hm2)]
    rfl
  have hkeep : ∀ (m2 : Message) (u2 : Option User), m2.isAI = true →
      aiCreatedEvents [Event.messageCreated m2 u2, Event.httpResponse m2 u2]
        = [Event.messageCreated m2 u2] := by
    intro m2 u2 hm2
    rw [aiCreatedEvents_cons_keep (Event.messageCreated m2 u2) _
      (by simpa [isAICreatedEvent] using hm2)]
    rw [aiCreatedEvents_cons_skip (Event.httpResponse m2 u2) _ rfl]
    rfl
  cases hcall : shouldCallAI body raw with
  | false =>
    constructor
    · simp only [postMessages, hcall, Bool.false_eq_true, if_false]
      cases hai : jsOrBool body.isAI with
      | true =>
        have hm : (createMessage st body).1.isAI = true := by simpa using hai
        rw [hkeep _ _ hm]
        exact Nat.le_refl 1
      | false =>
        have hm : (createMessage st body).1.isAI = false := by simpa using hai
        rw [hskip _ _ hm]
        exact Nat.zero_le 1
    · intro hc
      cases hc
  | true =>
    have hai : jsOrBool body.isAI = false := shouldCallAI_not_ai body raw hcall
    have hm : (createMessage st body).1.isAI = false := by simpa using hai
    have hturn := aiCreated_turn env (createMessage st body).2 body.content
      (some (jsOrString body.chatType "general")) (jsTruthy body.privateChatUserId)
    constructor
    · simp only [postMessages, hcall, if_true]
      rw [aiCreatedEvents_append, hskip _ _ hm]
      simpa using hturn.1
    · intro _ hk hok
      obtain ⟨ph, hev, h1, h2⟩ := hturn.2 hk hok
      refine ⟨ph, ?_, h1, h2⟩
      simp only [postMessages, hcall, if_true]
      rw [aiCreatedEvents_append, hskip _ _ hm, hev]
      rfl

/-- Witness for C2: the reachable environment yields exactly one empty AI
placeholder broadcast for the eligible general message. -/
theorem c2_witness :
    ∃ ph, aiCreatedEvents (postMessages envOk emptyStorage bodyGen none).2 =
        [Event.messageCreated ph none] ∧ ph.isAI = true ∧ ph.content = "" :=
  (c2_at_most_one_placeholder envOk emptyStorage bodyGen none).2
    (by decide) (by decide) (by decide)

/-- Counterexample for C3 as stated: on a reachable turn the external
capability invocation is the first event and the placeholder created
broadcast only the second, so creation does not precede the invocation. -/
theorem c3_counterexample :
    firstIdx isFetchEvent
        (callQwenAPI envOk emptyStorage "q" (some "general") none).2.1 = some 0 ∧
    firstIdx isAICreatedEvent
        (callQwenAPI envOk emptyStorage "q" (some "general") none).2.1 = some 1 := by
  constructor <;> rfl

/-- Claim C3 (amended): on a reachable turn the generator first invokes the
external capability, then creates and broadcasts the empty AI placeholder,
and only then come the streaming updates: every later event is a
message_update. -/
theorem c3_fetch_then_placeholder (env : GenEnv) (st : StorageState) (p : String)
    (ct pcid : Option String) (hk : env.apiKey ≠ "") (hok : env.fetchOk = true) :
    ∃ ph rest, (callQwenAPI env st p ct pcid).2.1 =
        Event.fetchRequest :: Event.messageCreated ph none :: rest ∧
      ph.isAI = true ∧ ph.content = "" ∧
      ∀ e ∈ rest, ∃ i c b, e = Event.messageUpdate i c b := by
  unfold callQwenAPI
  rw [if_neg hk]
  simp only [hok, Bool.not_true, Bool.false_eq_true, if_false]
  cases hr : env.streamRaises with
  | true =>
    simp only [if_pos rfl, if_true]
    refine ⟨_, _, rfl, rfl, rfl, ?_⟩
    intro e he
    rw [runStream_events] at he
    rcases List.mem_map.mp he with ⟨c, _, rfl⟩
    exact ⟨_, c, false, rfl⟩
  | false =>
    simp only [Bool.false_eq_true, if_false]
    refine ⟨_, _, rfl, rfl, rfl, ?_⟩
    intro e he
    rcases List.mem_append.mp he with h1 | h1
    · rw [runStream_events] at h1
      rcases List.mem_map.mp h1 with ⟨c, _, rfl⟩
      exact ⟨_, c, false, rfl⟩
    · rw [List.mem_singleton] at h1
      subst h1
      exact ⟨_, _, true, rfl⟩

/-- Witness for C3 at a concrete reachable environment. -/
theorem c3_witness :
    ∃ ph rest, (callQwenAPI envOk emptyStorage "q" (some "general") none).2.1 =
        Event.fetchRequest :: Event.messageCreated ph none :: rest ∧
      ph.isAI = true ∧ ph.content = "" ∧
      ∀ e ∈ rest, ∃ i c b, e = Event.messageUpdate i c b :=
  c3_fetch_then_placeholder envOk emptyStorage "q" (some "general") none
    (by decide) (by decide)

/-- Claim C4: for a reachable turn the message_update contents for the
placeholder id form a prefix-extension chain with non-decreasing lengths,
and at every stream prefix the stored placeholder content equals the last
broadcast accumulator (the created empty content when nothing was broadcast
yet). -/
theorem c4_stream_monotonic (env : GenEnv) (st : StorageState) (p : String)
    (ct pcid : Option String) (hk : env.apiKey ≠ "") (hok : env.fetchOk = true)
    (hfresh : ∀ m ∈ st.messages, m.id ≠ st.nextId) :
    List.Chain' PrefixExt
      (updateContents st.nextId (callQwenAPI env st p ct pcid).2.1) ∧
    List.Chain' (fun a b => a.length ≤ b.length)
      (updateContents st.nextId (callQwenAPI env st p ct pcid).2.1) ∧
    (∀ k, msgContent (callQwenAPI (truncEnv env k) st p ct pcid).1 st.nextId =
      some ((updateContents st.nextId
        (callQwenAPI (truncEnv env k) st p ct pcid).2.1).getLastD "")) := by
  have hrefl : ∀ a : String, PrefixExt a a := fun a => ⟨[], List.append_nil _⟩
  have hchain : List.Chain' PrefixExt
      (updateContents st.nextId (callQwenAPI env st p ct pcid).2.1) := by
    rw [updateContents_turn env st p ct pcid hk hok]
    cases hr : env.streamRaises with
    | true =>
      simp only [if_pos rfl, if_true, List.append_nil]
      exact (streamContents_chain env.deltas "").tail
    | false =>
      simp only [Bool.false_eq_true, if_false]
      exact chain'_snoc_lastD hrefl _ _ (streamContents_chain env.deltas "")
  refine ⟨hchain, List.Chain'.imp (fun a b h => prefixExt_length a b h) hchain, ?_⟩
  intro k
  have hk2 : ¬ (truncEnv env k).apiKey = "" := hk
  have hok2 : (truncEnv env k).fetchOk = true := hok
  rw [updateContents_turn (truncEnv env k) st p ct pcid hk2 hok2]
  have h0 : msgContent (createMessage st (aiPlaceholderInsert ct pcid)).2 st.nextId
      = some "" := msgContent_createMessage st (aiPlaceholderInsert ct pcid) hfresh
  have hrun := runStream_msgContent st.nextId (truncEnv env k).deltas
    (createMessage st (aiPlaceholderInsert ct pcid)).2 "" h0
  unfold callQwenAPI
  rw [if_neg hk2]
  simp only [hok2, Bool.not_true, Bool.false_eq_true, if_false]
  cases hr : (truncEnv env k).streamRaises with
  | true =>
    simp only [if_pos rfl, if_true, List.append_nil, createMessage_fst_id]
    exact hrun
  | false =>
    simp only [Bool.false_eq_true, if_false, List.getLastD_concat, createMessage_fst_id]
    exact hrun

/-- Witness for C4 at a concrete reachable environment. -/
theorem c4_witness :
    List.Chain' PrefixExt
      (updateContents emptyStorage.nextId
        (callQwenAPI envOk emptyStorage "q" (some "general") none).2.1) :=
  (c4_stream_monotonic envOk emptyStorage "q" (some "general") none
    (by decide) (by decide) (by decide)).1

/-- slice(-limit) keeps at most limit elements when limit is positive. -/
theorem jsSlice_neg_length {α : Type} (l : List α) (n : Int) (hn : 0 < n) :
    (jsSlice l (-n)).length ≤ n.toNat := by
  unfold jsSlice
  rw [if_neg (by omega)]
  simp only [neg_neg]
  rw [List.length_drop]
  have h1 : min n.toNat l.length ≤ l.length := Nat.min_le_right _ _
  rw [Nat.sub_sub_self h1]
  exact Nat.min_le_left _ _

/-- slice always yields a sublist. -/
theorem jsSlice_sublist {α : Type} (l : List α) (n : Int) :
    List.Sublist (jsSlice l n) l := by
  unfold jsSlice
  by_cases h : 0 ≤ n
  · rw [if_pos h]
    exact List.drop_sublist _ _
  · rw [if_neg h]
    exact List.drop_sublist _ _

/-- Private-scope filter decode: private chat type and a strictly matching
counterpart, which requires the query parameter to be present. -/
theorem scopeFilter_private (uid : Option String) (m : Message)
    (h : scopeFilter "private" uid m = true) :
    m.chatType = some "private" ∧ ∃ u2, uid = some u2 ∧ m.privateChatUserId = some u2 := by
  unfold scopeFilter at h
  rw [if_pos rfl] at h
  simp only [Bool.and_eq_true, decide_eq_true_eq] at h
  refine ⟨h.1, ?_⟩
  cases uid with
  | none => cases h.2
  | some u => exact ⟨u, rfl, of_decide_eq_true h.2⟩

/-- General-scope filter decode: chat type general or null. -/
theorem scopeFilter_general (ct : String) (uid : Option String) (m : Message)
    (hct : ¬ ct = "private") (h : scopeFilter ct uid m = true) :
    m.chatType = some "general" ∨ m.chatType = none := by
  unfold scopeFilter at h
  rw [if_neg hct] at h
  simpa using h

/-- Every returned row of getMessages comes from the store, is not a typing
placeholder and passes the scope filter. -/
theorem getMessages_mem (st : StorageState) (limit : Int) (ct : String) (uid : Option String)
    (p : Message × Option User) (hp : p ∈ getMessages st limit ct uid) :
    p.1 ∈ st.messages ∧ p.1.isTyping = false ∧ scopeFilter ct uid p.1 = true := by
  unfold getMessages at hp
  rcases List.mem_map.mp hp with ⟨m, hm, rfl⟩
  have hm2 : m ∈ List.insertionSort tsLe
      ((st.messages.filter (fun m => !m.isTyping)).filter (scopeFilter ct uid)) :=
    (jsSlice_sublist _ _).subset hm
  have hm3 : m ∈ (st.messages.filter (fun m => !m.isTyping)).filter (scopeFilter ct uid) :=
    (List.mem_insertionSort tsLe).mp hm2
  have h4 := List.mem_filter.mp hm3
  have h5 := List.mem_filter.mp h4.1
  refine ⟨h5.1, ?_, h4.2⟩
  simpa using h5.2

/-- getMessages lists rows in ascending timestamp order. -/
theorem getMessages_sorted (st : StorageState) (limit : Int) (ct : String)
    (uid : Option String) :
    List.Pairwise (fun a b => a.1.timestamp ≤ b.1.timestamp)
      (getMessages st limit ct uid) := by
  unfold getMessages
  rw [List.pairwise_map]
  have hs : List.Pairwise tsLe (List.insertionSort tsLe
      ((st.messages.filter (fun m => !m.isTyping)).filter (scopeFilter ct uid))) :=
    List.sorted_insertionSort tsLe _
  exact (hs.sublist (jsSlice_sublist _ _)).imp (fun h => h)

/-- Claim C8 (amended): for every positive effective limit (default 50 when
the query parameter is absent) the GET messages route returns at most limit
rows, ordered oldest to newest, containing no typing placeholders, only
stored messages, and only messages of the requested scope: for the private
scope private messages whose counterpart strictly equals the present query
user id, otherwise messages whose chat type is general or null. -/
theorem c8_get_messages (st : StorageState) (limitParam : Option Int)
    (ctp uidp : Option String) (hpos : 0 < limitParam.getD 50) :
    (getMessagesRoute st limitParam ctp uidp).length ≤ (limitParam.getD 50).toNat ∧
    List.Pairwise (fun a b => a.1.timestamp ≤ b.1.timestamp)
      (getMessagesRoute st limitParam ctp uidp) ∧
    (∀ p ∈ getMessagesRoute st limitParam ctp uidp,
      p.1 ∈ st.messages ∧ p.1.isTyping = false) ∧
    (jsOrString ctp "general" = "private" →
      ∀ p ∈ getMessagesRoute st limitParam ctp uidp,
        p.1.chatType = some "private" ∧
          ∃ u2, uidp = some u2 ∧ p.1.privateChatUserId = some u2) ∧
    (¬ jsOrString ctp "general" = "private" →
      ∀ p ∈ getMessagesRoute st limitParam ctp uidp,
        p.1.chatType = some "general" ∨ p.1.chatType = none) := by
  refine ⟨?_, ?_, ?_, ?_, ?_⟩
  · unfold getMessagesRoute getMessages
    rw [List.length_map]
    exact jsSlice_neg_length _ _ hpos
  · exact getMessages_sorted st _ _ _
  · intro p hp
    have h := getMessages_mem st _ _ _ p hp
    exact ⟨h.1, h.2.1⟩
  · intro hct p hp
    have h := getMessages_mem st _ _ _ p hp
    rw [hct] at h
    exact scopeFilter_private uidp p.1 h.2.2
  · intro hct p hp
    have h := getMessages_mem st _ _ _ p hp
    exact scopeFilter_general _ uidp p.1 hct h.2.2

/-- Counterexample for C8 as stated: querying with limit 0 returns the whole
store (slice(-0) is slice(0)), exceeding the requested bound of zero. -/
theorem c8_counterexample :
    (getMessagesRoute stB (some 0) none none).length = 1 ∧
    ¬ ((getMessagesRoute stB (some 0) none none).length ≤ 0) :=
  ⟨rfl, by decide⟩

/-- Witness for C8 at the default limit. -/
theorem c8_witness :
    (getMessagesRoute stB none none none).length ≤ ((none : Option Int).getD 50).toNat :=
  (c8_get_messages stB none none none (by decide)).1

end Chat
